import Mathlib

/-!
Shallow embedding of the DNS Intelligence Engine (dnsinfo.lol): the DoH client's
response normalization, the resolver registry, the propagation checker/analyzer,
the zone-health rule engine and the subdomain-discovery pipeline, together with
theorems settling the specification claims about them.

Asynchronous network effects are made explicit: each function that performs I/O
is embedded as a pure function over an environment argument describing the
network's answers, and code that collects results of concurrently started
promises in completion order takes that completion order as an explicit list of
indices.
-/

namespace DnsIntel

/-- Does `pat` start the character list `s`? (Executable helper for the
JavaScript string operations below.) -/
def charsStart : List Char → List Char → Bool
  | [], _ => true
  | _ :: _, [] => false
  | p :: ps, c :: cs => p == c && charsStart ps cs

/-- Does `pat` occur somewhere in `s`? -/
def charsOccur (pat : List Char) : List Char → Bool
  | [] => charsStart pat []
  | c :: cs => charsStart pat (c :: cs) || charsOccur pat cs

/-- Replace the first occurrence of `pat` in `s` by `repl` (no occurrence:
unchanged). -/
def charsReplaceFirst (pat repl : List Char) : List Char → List Char
  | [] => if charsStart pat [] then repl else []
  | c :: cs =>
    if charsStart pat (c :: cs) then repl ++ (c :: cs).drop pat.length
    else c :: charsReplaceFirst pat repl cs

/-- Code-unit lexicographic order on character lists: the order JavaScript's
default string comparison uses (for the code points occurring here, UTF-16
code-unit order and code-point order agree). -/
def charsLE : List Char → List Char → Bool
  | [], _ => true
  | _ :: _, [] => false
  | a :: as, b :: bs =>
    if a.toNat = b.toNat then charsLE as bs else decide (a.toNat < b.toNat)

/-- JavaScript `s.startsWith(pat)`. -/
def jsStartsWith (s pat : String) : Bool := charsStart pat.data s.data

/-- JavaScript `s.includes(pat)`. -/
def jsIncludes (s pat : String) : Bool := charsOccur pat.data s.data

/-- JavaScript `s.replace(pat, repl)` with a string pattern: replaces the first
occurrence only. -/
def jsReplaceFirst (s pat repl : String) : String :=
  ⟨charsReplaceFirst pat.data repl.data s.data⟩

/-- JavaScript ordinal (code-unit) string comparison, as a `≤` test. -/
def jsStrLE (a b : String) : Bool := charsLE a.data b.data

/-- JavaScript `[...new Set(l)]`: deduplication keeping first occurrences, in
insertion order. -/
def jsSetDedup (l : List String) : List String :=
  l.foldl (fun acc s => if acc.contains s then acc else acc ++ [s]) []

/-- JavaScript `Math.round` on an exact rational: round half toward positive
infinity. -/
def jsMathRound (q : ℚ) : Int := Int.floor (q + 1/2)

/-! ## DNS data model (dnsResolver.ts) -/

/-- `DNS_RECORD_TYPES`: the fixed name/code table, in object insertion order. -/
def DNS_RECORD_TYPES : List (String × Int) :=
  [("A", 1), ("AAAA", 28), ("CNAME", 5), ("MX", 15), ("NS", 2), ("TXT", 16),
   ("SOA", 6), ("PTR", 12), ("SRV", 33), ("CAA", 257), ("DNSKEY", 48), ("DS", 43)]

/-- `getRecordTypeName`: first table entry with the given code, else `TYPE<n>`. -/
def getRecordTypeName (typeNum : Int) : String :=
  match DNS_RECORD_TYPES.find? (fun p => p.2 == typeNum) with
  | some p => p.1
  | none => "TYPE" ++ toString typeNum

structure DNSRecord where
  name : String
  type : Int
  typeName : String
  TTL : Int
  data : String
deriving DecidableEq

structure DNSQuestion where
  name : String
  type : Int
deriving DecidableEq

structure DNSResponse where
  status : Int
  statusText : String
  question : List DNSQuestion
  answer : List DNSRecord
  authority : Option (List DNSRecord)
  additional : Option (List DNSRecord)
  AD : Bool
  CD : Bool
  TC : Bool
  RD : Bool
  RA : Bool
deriving DecidableEq

/-- A raw record object as it appears in the DoH JSON payload. -/
structure RawRecord where
  name : String
  type : Int
  TTL : Int
  data : String
deriving DecidableEq

/-- The parsed DoH JSON payload, every field optional (`none` = absent in the
JSON / `undefined`). -/
structure DoHPayload where
  Status : Option Int := none
  Question : Option (List DNSQuestion) := none
  Answer : Option (List RawRecord) := none
  Authority : Option (List RawRecord) := none
  Additional : Option (List RawRecord) := none
  AD : Option Bool := none
  CD : Option Bool := none
  TC : Option Bool := none
  RD : Option Bool := none
  RA : Option Bool := none
deriving DecidableEq

def statusTexts : List (Int × String) :=
  [(0, "NOERROR"), (1, "FORMERR"), (2, "SERVFAIL"), (3, "NXDOMAIN"),
   (4, "NOTIMP"), (5, "REFUSED")]

def rawToRecord (a : RawRecord) : DNSRecord :=
  ⟨a.name, a.type, getRecordTypeName a.type, a.TTL, a.data⟩

/-- The response-construction step of `queryDoHResolver` (the `return { ... }`
over the decoded JSON `data`): `Status` defaults to `0`, `Question`/`Answer`
default to `[]`, `AD`/`CD`/`TC` default to `false`, `RD`/`RA` default to `true`;
`statusText` indexes the status table with the raw (possibly `undefined`)
`Status`, falling back to an `UNKNOWN(...)` string. -/
def parseDoHResponse (d : DoHPayload) : DNSResponse where
  status := d.Status.getD 0
  statusText :=
    match d.Status with
    | some s =>
      match statusTexts.find? (fun p => p.1 == s) with
      | some p => p.2
      | none => "UNKNOWN(" ++ toString s ++ ")"
    | none => "UNKNOWN(undefined)"
  question := d.Question.getD []
  answer := (d.Answer.map (List.map rawToRecord)).getD []
  authority := d.Authority.map (List.map rawToRecord)
  additional := d.Additional.map (List.map rawToRecord)
  AD := d.AD.getD false
  CD := d.CD.getD false
  TC := d.TC.getD false
  RD := d.RD.getD true
  RA := d.RA.getD true

/-! ## Resolver registry -/

structure ResolverInfo where
  name : String
  region : String
  endpoint : String
  location : String
deriving DecidableEq

/-- `GLOBAL_RESOLVERS`, as a key/descriptor list in object insertion order
(the order `Object.entries` iterates). -/
def GLOBAL_RESOLVERS : List (String × ResolverInfo) :=
  [("google_us", ⟨"Google Public DNS", "North America",
      "https://dns.google/resolve", "United States"⟩),
   ("cloudflare_us", ⟨"Cloudflare DNS", "North America",
      "https://cloudflare-dns.com/dns-query", "United States (Anycast)"⟩),
   ("quad9_eu", ⟨"Quad9 DNS", "Europe",
      "https://dns.quad9.net:5053/dns-query", "Europe"⟩),
   ("dns_sb_asia", ⟨"DNS.SB", "Asia Pacific",
      "https://doh.dns.sb/dns-query", "Asia"⟩),
   ("adguard", ⟨"AdGuard DNS", "Global (Anycast)",
      "https://dns.adguard-dns.com/dns-query", "Anycast"⟩),
   ("nextdns", ⟨"NextDNS", "Global (Anycast)",
      "https://dns.nextdns.io/dns-query", "Anycast"⟩),
   ("control_d", ⟨"Control D", "Global (Anycast)",
      "https://freedns.controld.com/p0", "Anycast"⟩)]

inductive PropStatus
  | success
  | error
  | timeout
deriving DecidableEq

structure PropagationResult where
  resolver : String
  region : String
  location : String
  status : PropStatus
  response : Option DNSResponse
  latencyMs : Int
  error : Option String
  timestamp : String
deriving DecidableEq

/-- Environment for one resolver query inside `checkPropagation`: the network
outcome (`ok` response or thrown error message) plus the measured latency and
timestamp, which are wall-clock effects. -/
structure QueryEnv where
  outcome : Except String DNSResponse
  latencyMs : Int
  timestamp : String

/-- The result object `checkPropagation` pushes for one resolver: on success a
`success` entry carrying the response; on a thrown error an entry whose status
is `timeout` when the message contains `"timeout"` and `error` otherwise. -/
def mkPropResult (r : ResolverInfo) (e : QueryEnv) : PropagationResult :=
  match e.outcome with
  | .ok resp =>
    ⟨r.name, r.region, r.location, .success, some resp, e.latencyMs, none, e.timestamp⟩
  | .error msg =>
    ⟨r.name, r.region, r.location,
     if jsIncludes msg "timeout" then .timeout else .error,
     none, e.latencyMs, some msg, e.timestamp⟩

/-- `checkPropagation`, with the concurrency made explicit: `Promise.all` starts
one query per registry entry and each branch pushes its result onto the shared
`results` array when its own query settles, so the returned array is in
completion order. `order` lists registry indices in the order the queries
settle; `env` gives each resolver's network outcome. -/
def checkPropagation (env : ResolverInfo → QueryEnv) (order : List Nat) :
    List PropagationResult :=
  order.filterMap (fun i => (GLOBAL_RESOLVERS[i]?).map (fun p => mkPropResult p.2 (env p.2)))

/-! ## Propagation analysis (`analyzePropagation`) -/

/-- `results.filter(r => r.status === 'success')`. -/
def successfulOf (results : List PropagationResult) : List PropagationResult :=
  results.filter (fun r => r.status == PropStatus.success)

/-- The answer list of a result, `[]` when it carries no response. -/
def answersOf (r : PropagationResult) : List DNSRecord :=
  match r.response with
  | some resp => resp.answer
  | none => []

/-- One successful result's sorted A/AAAA data list (`.filter(...).map(a =>
a.data).sort()`; the default JavaScript sort compares strings by code units). -/
def sortedIPsOf (r : PropagationResult) : List String :=
  List.insertionSort (fun a b => jsStrLE a b = true)
    (((answersOf r).filter (fun a => a.typeName == "A" || a.typeName == "AAAA")).map
      (fun a => a.data))

/-- The `ipSets` array: the successful results that carry a response (the
`r.response?.answer` guard — an answer array itself is always truthy, even
empty), each mapped to its sorted A/AAAA data list. -/
def ipSetsOf (results : List PropagationResult) : List (List String) :=
  ((successfulOf results).filter (fun r => r.response.isSome)).map sortedIPsOf

/-- The discrepancy string pushed for one deviating resolver. -/
def discrepancyMsg (resolverName : String) (ips : List String) : String :=
  resolverName ++ " returned different IPs: " ++ String.intercalate ", " ips

/-- The resolver name the loop body reads: `successful[i].resolver`. The index
is taken in `successful`, not in the (possibly shorter) filtered `ipSets`
source list. In JavaScript the index is always in bounds because `ipSets` is at
most as long as `successful`; out of bounds is modelled by `""`. -/
def loopResolverName (successful : List PropagationResult) (i : Nat) : String :=
  match successful[i]? with
  | some r => r.resolver
  | none => ""

/-- The consistency `for` loop of `analyzePropagation`: starting from
`consistentRecords = true` and no discrepancies, for each `i` from `1` to
`ipSets.length - 1`, if `ipSets[i]` differs from `ipSets[0]` (the
`JSON.stringify` comparison of string arrays is equality of the lists), set
`consistentRecords` to `false` and push a discrepancy naming `successful[i]`.
The loop body only runs when `ipSets.length > 1`.
One iteration of the consistency loop's body, at index `i`. -/
def loopStep (successful : List PropagationResult) (ipSets : List (List String))
    (st : Bool × List String) (i : Nat) : Bool × List String :=
  if ipSets[i]? ≠ ipSets[0]? then
    (false, st.2 ++ [discrepancyMsg (loopResolverName successful i) (ipSets[i]?.getD [])])
  else st

def consistencyLoop (successful : List PropagationResult)
    (ipSets : List (List String)) : Bool × List String :=
  if ipSets.length > 1 then
    (List.range' 1 (ipSets.length - 1)).foldl (loopStep successful ipSets) (true, [])
  else (true, [])

structure PropagationAnalysis where
  propagated : Bool
  /-- `none` models the JavaScript `NaN` arising from `0/0` on an empty input
  (`Math.round(NaN)` is `NaN`). -/
  percentage : Option Int
  consistentRecords : Bool
  summary : String
  ipAddresses : List String
  discrepancies : List String
deriving DecidableEq

/-- Percentage rendered into the summary text (`NaN` prints as `"NaN"`). -/
def pctText : Option Int → String
  | some p => toString p
  | none => "NaN"

/-- `analyzePropagation`, embedded field by field. `NaN` comparisons are
`false`, so on an empty input `propagated` is `false` and the summary takes the
final (inconsistency) branch. -/
def analyzePropagation (results : List PropagationResult) : PropagationAnalysis :=
  let successful := successfulOf results
  let percentage : Option Int :=
    if results.length = 0 then none
    else some (jsMathRound ((successful.length : ℚ) / (results.length : ℚ) * 100))
  let ipSets := ipSetsOf results
  let allIPs := jsSetDedup ipSets.flatten
  let looped := consistencyLoop successful ipSets
  let pctGE70 : Bool := match percentage with
    | some p => decide (p ≥ 70)
    | none => false
  let pctLT70 : Bool := match percentage with
    | some p => decide (p < 70)
    | none => false
  let propagated := pctGE70 && looped.1
  let summary :=
    if propagated then
      "DNS records have propagated to " ++ pctText percentage ++
        "% of global resolvers with consistent results."
    else if pctLT70 then
      "DNS records have only propagated to " ++ pctText percentage ++
        "% of global resolvers. Propagation may still be in progress."
    else
      "DNS records show inconsistencies across global resolvers. This may indicate ongoing propagation or configuration issues."
  ⟨propagated, percentage, looped.1, summary, allIPs, looped.2⟩

/-! ## Zone health engine (zoneHealth.ts) -/

inductive Severity
  | critical
  | warning
  | info
deriving DecidableEq

inductive IssueCategory
  | SOA
  | NS
  | A
  | MX
  | CNAME
  | TXT
  | General
deriving DecidableEq

structure ZoneHealthIssue where
  severity : Severity
  category : IssueCategory
  message : String
  recommendation : Option String := none
deriving DecidableEq

/-- The private-address test inside `validateA`, clause for clause; note the
bare `ip.startsWith('172.2')` clause in the source where its neighbours spell
out a full octet. -/
def isPrivateIPCheck (ip : String) : Bool :=
  jsStartsWith ip "10." ||
  jsStartsWith ip "172.16." ||
  jsStartsWith ip "172.17." ||
  jsStartsWith ip "172.18." ||
  jsStartsWith ip "172.19." ||
  jsStartsWith ip "172.2" ||
  jsStartsWith ip "172.30." ||
  jsStartsWith ip "172.31." ||
  jsStartsWith ip "192.168." ||
  jsStartsWith ip "127." ||
  false

/-- Modelled from the spec: the private-range prefixes the spec names for the
A-record check, `10.`, `172.16.` through `172.31.`, `192.168.` and `127.`
(stated as dotted-octet prefixes); written from the spec's words for comparison
with the source's `isPrivateIPCheck`. -/
def specPrivateRange (ip : String) : Bool :=
  jsStartsWith ip "10." ||
  (["172.16.", "172.17.", "172.18.", "172.19.", "172.20.", "172.21.",
    "172.22.", "172.23.", "172.24.", "172.25.", "172.26.", "172.27.",
    "172.28.", "172.29.", "172.30.", "172.31."].any (fun p => jsStartsWith ip p)) ||
  jsStartsWith ip "192.168." ||
  jsStartsWith ip "127."

/-- The TTL shown in the low-TTL message: `lowTTL[0].TTL`. -/
def firstTTL : List DNSRecord → Int
  | [] => 0
  | r :: _ => r.TTL

/-- `validateA`: empty record list yields the info issue; otherwise a critical
issue when any record's data passes the private-address test, plus an info
issue when any record's TTL is below 60. -/
def validateA (records : List DNSRecord) : List ZoneHealthIssue :=
  if records.length = 0 then
    [⟨.info, .A, "No A records found for root domain",
      some "If this domain should resolve to a web server, add an A record."⟩]
  else
    let privateIPs := records.filter (fun r => isPrivateIPCheck r.data)
    let criticalIssues : List ZoneHealthIssue :=
      if privateIPs.length > 0 then
        [⟨.critical, .A,
          "A record(s) point to private IP address(es): " ++
            String.intercalate ", " (privateIPs.map (fun r => r.data)),
          some "Replace with public IP addresses. Private IPs are not reachable from the internet."⟩]
      else []
    let lowTTL := records.filter (fun r => r.TTL < 60)
    let ttlIssues : List ZoneHealthIssue :=
      if lowTTL.length > 0 then
        [⟨.info, .A,
          "Very low TTL (" ++ toString (firstTTL lowTTL) ++ "s) on A records",
          some "Low TTL increases DNS load. Use 300+ seconds unless frequent changes expected."⟩]
      else []
    criticalIssues ++ ttlIssues

/-- The summary block built by `analyzeZoneHealth` (only the fields
`calculateScore` reads matter to the claims; all are carried). -/
structure ZoneSummary where
  hasSOA : Bool
  hasNS : Bool
  hasA : Bool
  hasMX : Bool
  hasSPF : Bool
  hasDKIM : Bool
  hasDMARC : Bool
  nsCount : Nat
  mxCount : Nat
  ttlConsistent : Bool
deriving DecidableEq

/-- The `switch` of `calculateScore`'s deduction loop. -/
def severityStep (s : Int) (issue : ZoneHealthIssue) : Int :=
  match issue.severity with
  | .critical => s - 20
  | .warning => s - 10
  | .info => s - 2

/-- `calculateScore`: start from 100, walk the issues deducting 20/10/2 by
severity, add the four bonuses, then clamp with `Math.max(0, Math.min(100, score))`. -/
def calculateScore (issues : List ZoneHealthIssue) (summary : ZoneSummary) : Int :=
  let base : Int := 100
  let afterIssues := issues.foldl severityStep base
  let s1 := if summary.nsCount ≥ 2 then afterIssues + 5 else afterIssues
  let s2 := if summary.hasSPF then s1 + 5 else s1
  let s3 := if summary.hasDMARC then s2 + 5 else s2
  let s4 := if summary.mxCount ≥ 2 then s3 + 3 else s3
  max 0 (min 100 s4)

inductive Grade
  | A
  | B
  | C
  | D
  | F
deriving DecidableEq

/-- `scoreToGrade`: fixed breakpoints 90/80/70/60. -/
def scoreToGrade (score : Int) : Grade :=
  if score ≥ 90 then .A
  else if score ≥ 80 then .B
  else if score ≥ 70 then .C
  else if score ≥ 60 then .D
  else .F

/-- Issues of one severity among a list, counted as an integer. -/
def severityCount (issues : List ZoneHealthIssue) (sev : Severity) : Int :=
  ((issues.filter (fun i => i.severity == sev)).length : Int)

/-! ## Subdomain discovery pipeline (subdomainEnum.ts) -/

/-- `COMMON_SUBDOMAINS`, verbatim and in order. -/
def COMMON_SUBDOMAINS : List String :=
  ["www", "mail", "webmail", "ftp", "smtp", "pop", "imap",
   "admin", "portal", "api", "dev", "staging", "test", "demo",
   "blog", "shop", "store", "cdn", "static", "assets", "images",
   "app", "mobile", "m", "vpn", "remote", "secure", "login",
   "auth", "sso", "id", "accounts", "support", "help", "docs",
   "ns1", "ns2", "dns", "dns1", "dns2", "mx", "mx1", "mx2",
   "cpanel", "whm", "plesk", "server", "host", "cloud",
   "status", "monitor", "metrics", "analytics", "tracking",
   "git", "gitlab", "github", "bitbucket", "jenkins", "ci",
   "db", "database", "mysql", "postgres", "redis", "mongo",
   "backup", "bak", "old", "new", "beta", "alpha", "stage",
   "internal", "intranet", "extranet", "private", "public"]

structure SSLDetails where
  issuer : Option String := none
  validFrom : Option String := none
  validTo : Option String := none
  expired : Option Bool := none
deriving DecidableEq

structure SubdomainResult where
  subdomain : String
  fullDomain : String
  source : String
  hasSSL : Bool
  sslDetails : Option SSLDetails := none
  resolves : Bool
  ipAddresses : Option (List String) := none
deriving DecidableEq

structure SubdomainEnumerationResult where
  domain : String
  timestamp : String
  totalFound : Nat
  subdomains : List SubdomainResult
  ctCount : Nat
  commonCount : Nat
deriving DecidableEq

/-- The options object of `enumerateSubdomains` with its destructuring
defaults. -/
structure EnumOptions where
  checkSSL : Bool := true
  checkResolution : Bool := true
  includeCommon : Bool := true
  maxResults : Nat := 100

/-- Network environment of one enumeration run: `resolution full` gives the A
data list `checkSubdomainResolution` extracts for `full` (it resolves iff the
list is non-empty); `ssl full` gives `checkSSLCertificate`'s verdict; `now` is
the run's timestamp. -/
structure ProbeEnv where
  resolution : String → List String
  ssl : String → Bool × Option SSLDetails
  now : String

/-- The label of one CT-discovered name: `'@'` for the apex, otherwise the name
with the first occurrence of `.domain` removed (`sub.replace` replaces only the
first occurrence). -/
def subdomainLabel (domain sub : String) : String :=
  if sub = domain then "@" else jsReplaceFirst sub ("." ++ domain) ""

/-- The `SubdomainResult` the CT loop pushes for one unseen name `sub`:
resolution is probed only under `checkResolution`, SSL only under `checkSSL`
and only when the name resolved. -/
def ctEntry (domain : String) (opts : EnumOptions) (env : ProbeEnv)
    (sub : String) : SubdomainResult :=
  let ips := env.resolution sub
  let resolves := if opts.checkResolution then ips.length > 0 else false
  let ipAddresses := if opts.checkResolution then some ips else none
  let sslOut := if opts.checkSSL && resolves then env.ssl sub else (false, none)
  { subdomain := subdomainLabel domain sub
    fullDomain := sub
    source := "Certificate Transparency"
    hasSSL := sslOut.1
    sslDetails := sslOut.2
    resolves := resolves
    ipAddresses := ipAddresses }

/-- Mutable state of the enumeration: the `seenDomains` set (insertion order),
the `subdomains` array and the two source counters. -/
structure EnumState where
  seen : List String
  subs : List SubdomainResult
  ctCount : Nat
  commonCount : Nat
deriving DecidableEq

/-- One iteration of the CT `for` loop: names already seen, or arriving once
`subdomains.length` has reached `maxResults`, are skipped (and, in the capped
case, not marked seen either). -/
def ctStep (domain : String) (opts : EnumOptions) (env : ProbeEnv)
    (st : EnumState) (sub : String) : EnumState :=
  if st.seen.contains sub || st.subs.length ≥ opts.maxResults then st
  else
    { seen := st.seen ++ [sub]
      subs := st.subs ++ [ctEntry domain opts env sub]
      ctCount := st.ctCount + 1
      commonCount := st.commonCount }

/-- One wordlist candidate of the common phase: skipped when its full domain
was already seen (the synchronous prefix of each async task runs in list order,
and distinct wordlist entries give distinct full domains, so the per-task
`seenDomains` additions never affect another candidate); retained only when it
resolves; SSL probed under `checkSSL`. -/
def commonCandidate (domain : String) (opts : EnumOptions) (env : ProbeEnv)
    (seen : List String) (sub : String) : Option SubdomainResult :=
  let full := sub ++ "." ++ domain
  if seen.contains full then none
  else
    let ips := env.resolution full
    if ips.length > 0 then
      let sslOut := if opts.checkSSL then env.ssl full else (false, none)
      some
        { subdomain := sub
          fullDomain := full
          source := "Common Subdomain List"
          hasSSL := sslOut.1
          sslDetails := sslOut.2
          resolves := true
          ipAddresses := some ips }
    else none

/-- `enumerateSubdomains`, with the run's network effects (`env`), the
completion order of the common phase's concurrent probes (`commonOrder`, a
permutation of the retained candidates' positions — their pushes interleave in
completion order) and the host collation behind `localeCompare` (`lc`) made
explicit. The final array is sorted ascending by the comparator
`a.subdomain.localeCompare(b.subdomain)`; a consistent JavaScript comparator
sort is modelled by a stable sort under `lc ≠ gt`. -/
def enumerateSubdomains (domain : String) (opts : EnumOptions)
    (ctSubdomains : List String) (env : ProbeEnv) (commonOrder : List Nat)
    (lc : String → String → Ordering) : SubdomainEnumerationResult :=
  let st := ctSubdomains.foldl (ctStep domain opts env) ⟨[], [], 0, 0⟩
  let commonResults :=
    if opts.includeCommon && st.subs.length < opts.maxResults then
      (COMMON_SUBDOMAINS.take (opts.maxResults - st.subs.length)).filterMap
        (commonCandidate domain opts env st.seen)
    else []
  let commonArrived := commonOrder.filterMap (fun i => commonResults[i]?)
  let merged := st.subs ++ commonArrived
  let sorted :=
    List.insertionSort (fun a b => lc a.subdomain b.subdomain ≠ Ordering.gt) merged
  { domain := domain
    timestamp := env.now
    totalFound := sorted.length
    subdomains := sorted
    ctCount := st.ctCount
    commonCount := commonArrived.length }

/-! ## Concrete fixtures used by counterexamples and witnesses -/

/-- An all-defaults response (the parse of an empty payload). -/
def okResp : DNSResponse := parseDoHResponse {}

/-- Network environment in which every resolver answers successfully. -/
def envAllOk : ResolverInfo → QueryEnv := fun _ => ⟨.ok okResp, 10, "t"⟩

/-- A NOERROR response whose answer holds one A record per given address. -/
def respWithIPs (ips : List String) : DNSResponse :=
  { status := 0, statusText := "NOERROR", question := [],
    answer := ips.map (fun ip => ⟨"d", 1, "A", 300, ip⟩),
    authority := none, additional := none, AD := false, CD := false, TC := false,
    RD := true, RA := true }

/-- A successful propagation result for resolver `nm` answering `ips`. -/
def succResult (nm : String) (ips : List String) : PropagationResult :=
  ⟨nm, "r", "l", .success, some (respWithIPs ips), 10, none, "t"⟩

/-- A failed propagation result for resolver `nm`. -/
def errResult (nm : String) : PropagationResult :=
  ⟨nm, "r", "l", .error, none, 10, some "HTTP 500: oops", "t"⟩

/-- Three successful resolvers where the first (and only the first) reports a
different sorted IP set than the other two. -/
def exFirstDeviates : List PropagationResult :=
  [succResult "Google Public DNS" ["1.1.1.1"],
   succResult "Cloudflare DNS" ["2.2.2.2"],
   succResult "Quad9 DNS" ["2.2.2.2"]]

/-- Seven propagation results, five successful and two failed. -/
def exFiveOfSeven : List PropagationResult :=
  [succResult "Google Public DNS" ["1.1.1.1"],
   succResult "Cloudflare DNS" ["1.1.1.1"],
   succResult "Quad9 DNS" ["1.1.1.1"],
   errResult "DNS.SB",
   succResult "AdGuard DNS" ["1.1.1.1"],
   succResult "NextDNS" ["1.1.1.1"],
   errResult "Control D"]

/-- Probe environment in which nothing resolves and nothing serves TLS. -/
def envNoRes : ProbeEnv := ⟨fun _ => [], fun _ => (false, none), "ts"⟩

/-- Probe environment in which everything resolves to `1.2.3.4` with TLS. -/
def envAllRes : ProbeEnv := ⟨fun _ => ["1.2.3.4"], fun _ => (true, some {}), "ts"⟩

/-- Collation key of an ICU-root-like host locale: in the root collation,
symbols such as `@` sort before digits, the opposite of their ordinal order;
mapping `@` below `0` reproduces that inversion for the labels at hand. -/
def icuKey (s : String) : String :=
  ⟨s.data.map (fun c => if c == '@' then '$' else c)⟩

/-- A host `localeCompare` whose collation (ICU-root-like) orders `@` before
digits, unlike ordinal comparison. -/
def icuLC (a b : String) : Ordering :=
  if icuKey a = icuKey b then .eq
  else if jsStrLE (icuKey a) (icuKey b) then .lt else .gt

/-- A host `localeCompare` that happens to coincide with ordinal (code-unit)
comparison. -/
def ordLC (a b : String) : Ordering :=
  if a = b then .eq else if jsStrLE a b then .lt else .gt

/-! ## Helper lemmas -/

theorem charsLE_total : ∀ a b : List Char, charsLE a b = true ∨ charsLE b a = true
  | [], _ => Or.inl rfl
  | _ :: _, [] => Or.inr rfl
  | a :: as, b :: bs => by
    by_cases h : a.toNat = b.toNat
    · have ih := charsLE_total as bs
      simp only [charsLE, h, eq_self_iff_true, if_true]
      exact ih
    · have h2 : ¬ b.toNat = a.toNat := fun hh => h hh.symm
      simp only [charsLE, if_neg h, if_neg h2, decide_eq_true_eq]
      omega

theorem charsLE_trans :
    ∀ a b c : List Char, charsLE a b = true → charsLE b c = true → charsLE a c = true
  | [], _, _ => fun _ _ => rfl
  | _ :: _, [], _ => fun h _ => nomatch h
  | _ :: _, _ :: _, [] => fun _ h => nomatch h
  | a :: as, b :: bs, c :: cs => by
    simp only [charsLE]
    by_cases hab : a.toNat = b.toNat <;> by_cases hbc : b.toNat = c.toNat
    · have ih := charsLE_trans as bs cs
      simp only [hab, hbc, eq_self_iff_true, if_true]
      exact ih
    · have hac : ¬ a.toNat = c.toNat := by omega
      simp only [if_pos hab, if_neg hbc, if_neg hac, decide_eq_true_eq]
      omega
    · have hac : ¬ a.toNat = c.toNat := by omega
      simp only [if_neg hab, if_pos hbc, if_neg hac, decide_eq_true_eq]
      omega
    · simp only [if_neg hab, if_neg hbc, decide_eq_true_eq]
      intro h1 h2
      have hac : ¬ a.toNat = c.toNat := by omega
      simp only [if_neg hac, decide_eq_true_eq]
      omega

theorem jsStrLE_total (a b : String) : jsStrLE a b = true ∨ jsStrLE b a = true :=
  charsLE_total a.data b.data

theorem jsStrLE_trans (a b c : String) :
    jsStrLE a b = true → jsStrLE b c = true → jsStrLE a c = true :=
  charsLE_trans a.data b.data c.data

/-- `ordLC` is below-or-equal exactly when `jsStrLE` holds. -/
theorem ordLC_ne_gt (a b : String) : ordLC a b ≠ Ordering.gt ↔ jsStrLE a b = true := by
  unfold ordLC
  by_cases he : a = b
  · subst he
    simp only [if_pos rfl]
    constructor
    · intro _
      rcases jsStrLE_total a a with h | h <;> exact h
    · intro _
      exact fun h => nomatch h
  · by_cases hle : jsStrLE a b = true
    · simp [he, hle]
    · simp [he, hle]

/-- Closed form of the consistency loop's fold over any index list: the flag
ends `true` exactly on indices all matching set 0, and the messages are those
of the mismatching indices, appended in order. -/
theorem loopFold_closed (successful : List PropagationResult)
    (ipSets : List (List String)) :
    ∀ (l : List Nat) (b : Bool) (ds : List String),
      l.foldl (loopStep successful ipSets) (b, ds) =
        (b && l.all (fun i => ipSets[i]? == ipSets[0]?),
         ds ++ l.filterMap (fun i =>
           if ipSets[i]? ≠ ipSets[0]? then
             some (discrepancyMsg (loopResolverName successful i) (ipSets[i]?.getD []))
           else none))
  | [], b, ds => by simp
  | i :: l, b, ds => by
    by_cases h : ipSets[i]? = ipSets[0]?
    · simp only [List.foldl_cons, loopStep]
      rw [if_neg (not_not_intro h)]
      rw [loopFold_closed successful ipSets l b ds]
      simp [h]
    · simp only [List.foldl_cons, loopStep]
      rw [if_pos h]
      rw [loopFold_closed successful ipSets l false
        (ds ++ [discrepancyMsg (loopResolverName successful i) (ipSets[i]?.getD [])])]
      simp [h, List.append_assoc]

/-- Indexing a list over the full range of its positions is just mapping. -/
theorem filterMap_index_range {α β : Type} (l : List α) (g : α → β) :
    (List.range l.length).filterMap (fun i => (l[i]?).map g) = l.map g := by
  induction l with
  | nil => simp
  | cons a t ih =>
    rw [List.length_cons, List.range_succ_eq_map]
    simp only [List.filterMap_cons, List.getElem?_cons_zero, Option.map_some]
    rw [List.filterMap_map]
    have : ((fun i => ((a :: t)[i]?).map g) ∘ Nat.succ) = fun i => (t[i]?).map g := by
      funext i
      simp
    rw [this, ih]
    simp

/-- Closed form of `calculateScore`'s deduction fold. -/
theorem severityFold_closed (l : List ZoneHealthIssue) (s : Int) :
    l.foldl severityStep s =
      s - 20 * severityCount l .critical - 10 * severityCount l .warning
        - 2 * severityCount l .info := by
  induction l generalizing s with
  | nil => simp [severityCount]
  | cons i t ih =>
    simp only [List.foldl_cons]
    rw [ih]
    cases h : i.severity <;>
      simp [severityStep, severityCount, List.filter_cons, h] <;> ring

/-- Closed form of the CT phase's loop when the cap is never reached: starting
from a state disjoint from the incoming names, a duplicate-free CT list that
fits under `maxResults` is appended wholesale — every name marked seen, one
entry pushed per name. -/
theorem ctFold_no_cap (domain : String) (opts : EnumOptions) (env : ProbeEnv) :
    ∀ (ct : List String) (st : EnumState),
      (∀ s ∈ ct, s ∉ st.seen) → ct.Nodup →
      st.subs.length + ct.length ≤ opts.maxResults →
      ct.foldl (ctStep domain opts env) st =
        ⟨st.seen ++ ct, st.subs ++ ct.map (ctEntry domain opts env),
         st.ctCount + ct.length, st.commonCount⟩
  | [], st => by
    intro _ _ _
    simp
  | s :: ct, st => by
    intro hseen hnd hlen
    have hs : s ∉ st.seen := hseen s (List.mem_cons_self s ct)
    simp only [List.length_cons] at hlen
    simp only [List.foldl_cons, ctStep]
    rw [if_neg (by simp [hs]; omega)]
    have hnd' := List.nodup_cons.mp hnd
    rw [ctFold_no_cap (domain) (opts) (env) ct
      ⟨st.seen ++ [s], st.subs ++ [ctEntry domain opts env s],
       st.ctCount + 1, st.commonCount⟩
      (by
        intro x hx
        simp only [List.mem_append, List.mem_singleton]
        rintro (hmem | hxs)
        · exact hseen x (List.mem_cons_of_mem s hx) hmem
        · exact hnd'.1 (hxs ▸ hx))
      hnd'.2
      (by simp; omega)]
    simp [List.append_assoc]
    omega

/-- A wordlist candidate retained by the common phase was not a seen (CT)
name: its full domain lies outside the `seen` list. -/
theorem commonCandidate_not_seen (domain : String) (opts : EnumOptions)
    (env : ProbeEnv) (seen : List String) (sub : String) (r : SubdomainResult)
    (h : commonCandidate domain opts env seen sub = some r) :
    r.fullDomain ∉ seen := by
  simp only [commonCandidate] at h
  by_cases hseen : seen.contains (sub ++ "." ++ domain) = true
  · rw [if_pos hseen] at h
    exact Option.noConfusion h
  · rw [if_neg hseen] at h
    by_cases hres : (env.resolution (sub ++ "." ++ domain)).length > 0
    · rw [if_pos hres] at h
      have hr := (Option.some.injEq _ _).mp h
      have hfd : r.fullDomain = sub ++ "." ++ domain := by rw [← hr]
      rw [hfd]
      simpa using hseen
    · rw [if_neg hres] at h
      exact Option.noConfusion h

/-- Counting and source facts survive the final sort: filtering the sorted
merge of the CT part and the common part counts both parts. -/
theorem filter_sorted_merge (lc : String → String → Ordering)
    (ctPart common : List SubdomainResult) (p : SubdomainResult → Bool) :
    ((List.insertionSort
        (fun a b : SubdomainResult => lc a.subdomain b.subdomain ≠ Ordering.gt)
        (ctPart ++ common)).filter p).length =
      (ctPart.filter p).length + (common.filter p).length := by
  rw [← List.countP_eq_length_filter, ← List.countP_eq_length_filter,
    ← List.countP_eq_length_filter]
  rw [(List.perm_insertionSort _ _).countP_eq]
  exact List.countP_append p ctPart common

/-! ## Claim theorems -/

/-- C10: for every input sequence of propagation results, the analysis returned
by `analyzePropagation` has `consistentRecords` equal to `true` if and only if
its `discrepancies` list is empty. -/
theorem analyzePropagation_consistent_iff_no_discrepancies
    (results : List PropagationResult) :
    (analyzePropagation results).consistentRecords = true ↔
      (analyzePropagation results).discrepancies = [] := by
  have hc : (analyzePropagation results).consistentRecords
      = (consistencyLoop (successfulOf results) (ipSetsOf results)).1 := rfl
  have hd : (analyzePropagation results).discrepancies
      = (consistencyLoop (successfulOf results) (ipSetsOf results)).2 := rfl
  rw [hc, hd]
  unfold consistencyLoop
  by_cases h : (ipSetsOf results).length > 1
  · rw [if_pos h, loopFold_closed]
    simp only [Bool.true_and, List.nil_append, List.all_eq_true, List.filterMap_eq_nil_iff]
    apply Iff.intro <;> intro hh i hi <;> have hhi := hh i hi <;>
      by_cases he : (ipSetsOf results)[i]? = (ipSetsOf results)[0]? <;>
        simp [he] at hhi ⊢
  · rw [if_neg h]
    simp

/-- C9: for every non-empty input sequence, `analyzePropagation` computes the
percentage as `round(100 * successCount / totalResolverCount)` (an exact
rational rounded half-up), where `successCount` counts the results with status
`success` and `totalResolverCount` is the input length. -/
theorem analyzePropagation_percentage_formula
    (results : List PropagationResult) (h : results ≠ []) :
    (analyzePropagation results).percentage =
      some (jsMathRound
        (100 * ((successfulOf results).length : ℚ) / (results.length : ℚ))) := by
  have hn : results.length ≠ 0 := fun hh => h (List.length_eq_zero.mp hh)
  have hp : (analyzePropagation results).percentage =
      (if results.length = 0 then none
       else some (jsMathRound
         (((successfulOf results).length : ℚ) / (results.length : ℚ) * 100))) := rfl
  rw [hp, if_neg hn]
  have harg : ((successfulOf results).length : ℚ) / (results.length : ℚ) * 100 =
      100 * ((successfulOf results).length : ℚ) / (results.length : ℚ) := by ring
  rw [harg]

/-- C9 witness: five successes among seven results give percentage 71. -/
theorem analyzePropagation_percentage_formula_witness :
    exFiveOfSeven ≠ [] ∧
    (analyzePropagation exFiveOfSeven).percentage = some 71 := by
  refine ⟨by decide, ?_⟩
  rw [analyzePropagation_percentage_formula exFiveOfSeven (by decide)]
  have h5 : (successfulOf exFiveOfSeven).length = 5 := by decide
  have h7 : exFiveOfSeven.length = 7 := by decide
  rw [h5, h7]
  unfold jsMathRound
  norm_num

/-- C5: for every issue list and summary, the zone-health score is 100 minus
20/10/2 per critical/warning/info issue plus the four bonuses, clamped to
[0, 100]; and the grade breakpoints are exactly A ≥ 90, B ≥ 80, C ≥ 70,
D ≥ 60, else F. -/
theorem calculateScore_closed_form_and_grade_breakpoints :
    (∀ (issues : List ZoneHealthIssue) (summary : ZoneSummary),
      calculateScore issues summary =
        max 0 (min 100
          (100 - 20 * severityCount issues .critical
              - 10 * severityCount issues .warning
              - 2 * severityCount issues .info
              + (if summary.nsCount ≥ 2 then 5 else 0)
              + (if summary.hasSPF then 5 else 0)
              + (if summary.hasDMARC then 5 else 0)
              + (if summary.mxCount ≥ 2 then 3 else 0)))) ∧
    (∀ s : Int,
      (scoreToGrade s = .A ↔ 90 ≤ s) ∧
      (scoreToGrade s = .B ↔ 80 ≤ s ∧ s < 90) ∧
      (scoreToGrade s = .C ↔ 70 ≤ s ∧ s < 80) ∧
      (scoreToGrade s = .D ↔ 60 ≤ s ∧ s < 70) ∧
      (scoreToGrade s = .F ↔ s < 60)) := by
  constructor
  · intro issues summary
    simp only [calculateScore, severityFold_closed]
    split_ifs <;> omega
  · intro s
    unfold scoreToGrade
    split_ifs with h1 h2 h3 h4 <;>
      refine ⟨?_, ?_, ?_, ?_, ?_⟩ <;> constructor <;> intro hh <;>
        first
          | rfl
          | omega
          | exact absurd hh (by decide)

/-- C3 (code bug): the spec's private ranges do not contain `172.2.0.1`, a
public address, yet the source's `startsWith('172.2')` clause matches it, so
`validateA` emits the critical A-category issue for a record set whose only
address is `172.2.0.1`. -/
theorem validateA_flags_public_172_2_address :
    specPrivateRange "172.2.0.1" = false ∧
    isPrivateIPCheck "172.2.0.1" = true ∧
    (validateA [⟨"example.com", 1, "A", 300, "172.2.0.1"⟩]).any
      (fun i => i.severity == .critical && i.category == .A) = true := by decide

/-- C4 counterexample: on the empty payload (every field missing), the parsed
response's `statusCode` is 0 as claimed, but `RD` and `RA` default to `true`,
not `false`. -/
theorem parseDoH_missing_RD_RA_default_true :
    (parseDoHResponse {}).status = 0 ∧
    (parseDoHResponse {}).RD = true ∧
    (parseDoHResponse {}).RA = true ∧
    ¬ ((parseDoHResponse {}).RD = false) ∧
    ¬ ((parseDoHResponse {}).RA = false) := by decide

/-- C4 amended: a missing `Status` yields status code 0, the question and
answer lists default to empty, `AD`/`CD`/`TC` default to `false`, and `RD`/`RA`
default to `true`. -/
theorem parseDoH_field_defaults (d : DoHPayload) :
    (d.Status = none → (parseDoHResponse d).status = 0) ∧
    (d.Question = none → (parseDoHResponse d).question = []) ∧
    (d.Answer = none → (parseDoHResponse d).answer = []) ∧
    (d.AD = none → (parseDoHResponse d).AD = false) ∧
    (d.CD = none → (parseDoHResponse d).CD = false) ∧
    (d.TC = none → (parseDoHResponse d).TC = false) ∧
    (d.RD = none → (parseDoHResponse d).RD = true) ∧
    (d.RA = none → (parseDoHResponse d).RA = true) := by
  refine ⟨?_, ?_, ?_, ?_, ?_, ?_, ?_, ?_⟩ <;> intro h <;> simp [parseDoHResponse, h]

/-- C4 witness: the amended defaults evaluated at the empty payload. -/
theorem parseDoH_field_defaults_witness :
    (parseDoHResponse {}).status = 0 ∧
    (parseDoHResponse {}).question = [] ∧
    (parseDoHResponse {}).answer = [] ∧
    (parseDoHResponse {}).AD = false ∧
    (parseDoHResponse {}).CD = false ∧
    (parseDoHResponse {}).TC = false ∧
    (parseDoHResponse {}).RD = true ∧
    (parseDoHResponse {}).RA = true := by
  have h := parseDoH_field_defaults {}
  exact ⟨h.1 rfl, h.2.1 rfl, h.2.2.1 rfl, h.2.2.2.1 rfl, h.2.2.2.2.1 rfl,
    h.2.2.2.2.2.1 rfl, h.2.2.2.2.2.2.1 rfl, h.2.2.2.2.2.2.2 rfl⟩

/-- C6 counterexample: on the empty input sequence the percentage field is the
JavaScript `NaN` (modelled `none`), not a number between 0 and 100. -/
theorem analyzePropagation_empty_percentage_NaN :
    (analyzePropagation []).percentage = none ∧
    ¬ ∃ p : Int, (analyzePropagation []).percentage = some p ∧ 0 ≤ p ∧ p ≤ 100 := by
  refine ⟨rfl, ?_⟩
  rintro ⟨p, hp, -, -⟩
  rw [show (analyzePropagation []).percentage = none from rfl] at hp
  exact Option.noConfusion hp

/-- C6 amended: for every non-empty input sequence, the percentage is a number
between 0 and 100 inclusive. -/
theorem analyzePropagation_percentage_bounds
    (results : List PropagationResult) (h : results ≠ []) :
    ∃ p : Int, (analyzePropagation results).percentage = some p ∧ 0 ≤ p ∧ p ≤ 100 := by
  have hn : results.length ≠ 0 := fun hh => h (List.length_eq_zero.mp hh)
  refine ⟨jsMathRound
    (((successfulOf results).length : ℚ) / (results.length : ℚ) * 100), ?_, ?_, ?_⟩
  · show (if results.length = 0 then none
      else some (jsMathRound
        (((successfulOf results).length : ℚ) / (results.length : ℚ) * 100))) = some _
    rw [if_neg hn]
  · unfold jsMathRound
    refine Int.le_floor.mpr ?_
    have hq : (0:ℚ) ≤ ((successfulOf results).length : ℚ) / (results.length : ℚ) * 100 := by
      positivity
    push_cast
    linarith
  · unfold jsMathRound
    have hle : ((successfulOf results).length : ℚ) ≤ (results.length : ℚ) := by
      exact_mod_cast List.length_filter_le _ _
    have hpos : (0:ℚ) < (results.length : ℚ) := by
      have h0 : 0 < results.length := Nat.pos_of_ne_zero hn
      exact_mod_cast h0
    have hq : ((successfulOf results).length : ℚ) / (results.length : ℚ) * 100 ≤ 100 := by
      rw [div_mul_eq_mul_div, div_le_iff₀ hpos]
      nlinarith
    calc Int.floor (((successfulOf results).length : ℚ) / (results.length : ℚ) * 100 + 1/2)
        ≤ Int.floor ((201:ℚ)/2) := Int.floor_le_floor (by linarith)
      _ = 100 := by norm_num

/-- C6 witness: the bounds evaluated on a concrete seven-result input. -/
theorem analyzePropagation_percentage_bounds_witness :
    exFiveOfSeven ≠ [] ∧
    ∃ p : Int, (analyzePropagation exFiveOfSeven).percentage = some p ∧
      0 ≤ p ∧ p ≤ 100 :=
  ⟨by decide, analyzePropagation_percentage_bounds exFiveOfSeven (by decide)⟩

/-- C1 counterexample: with every resolver answering successfully and the
Cloudflare query settling before the Google one (a valid completion order,
a permutation of the registry positions), the returned sequence starts with
Cloudflare — it is in completion order, not registry order. -/
theorem checkPropagation_not_registry_ordered :
    ([1, 0, 2, 3, 4, 5, 6] : List Nat).Perm (List.range GLOBAL_RESOLVERS.length) ∧
    ((checkPropagation envAllOk [1, 0, 2, 3, 4, 5, 6]).map (fun r => r.resolver)) =
      ["Cloudflare DNS", "Google Public DNS", "Quad9 DNS", "DNS.SB",
       "AdGuard DNS", "NextDNS", "Control D"] ∧
    ¬ ((checkPropagation envAllOk [1, 0, 2, 3, 4, 5, 6]).map (fun r => r.resolver) =
        GLOBAL_RESOLVERS.map (fun p => p.2.name)) := by decide

/-- C1 amended: for every network environment and every completion order (a
permutation of the registry positions), `checkPropagation` returns exactly one
`PropagationResult` per registered resolver — a permutation of the
registry-ordered results — but in completion order, not registry order. -/
theorem checkPropagation_one_result_per_resolver
    (env : ResolverInfo → QueryEnv) (order : List Nat)
    (h : order.Perm (List.range GLOBAL_RESOLVERS.length)) :
    (checkPropagation env order).Perm
      (GLOBAL_RESOLVERS.map (fun p => mkPropResult p.2 (env p.2))) := by
  unfold checkPropagation
  have hp := h.filterMap
    (fun i => (GLOBAL_RESOLVERS[i]?).map (fun p => mkPropResult p.2 (env p.2)))
  rw [filterMap_index_range GLOBAL_RESOLVERS
    (fun p => mkPropResult p.2 (env p.2))] at hp
  exact hp

/-- C1 witness: the amended statement evaluated at the registry-order
completion order with an all-success environment. -/
theorem checkPropagation_one_result_per_resolver_witness :
    ([0, 1, 2, 3, 4, 5, 6] : List Nat).Perm (List.range GLOBAL_RESOLVERS.length) ∧
    (checkPropagation envAllOk [0, 1, 2, 3, 4, 5, 6]).Perm
      (GLOBAL_RESOLVERS.map (fun p => mkPropResult p.2 (envAllOk p.2))) :=
  ⟨by decide, checkPropagation_one_result_per_resolver envAllOk _ (by decide)⟩

/-- C2 counterexample: three successful resolvers where only the first
(Google) reports a different sorted IP set; the analysis flags the
inconsistency but the deviating resolver Google is named in no discrepancy —
the two agreeing resolvers are named instead. -/
theorem analyzePropagation_first_deviator_unnamed :
    ipSetsOf exFirstDeviates = [["1.1.1.1"], ["2.2.2.2"], ["2.2.2.2"]] ∧
    (exFirstDeviates.map (fun r => r.resolver)) =
      ["Google Public DNS", "Cloudflare DNS", "Quad9 DNS"] ∧
    (analyzePropagation exFirstDeviates).consistentRecords = false ∧
    (analyzePropagation exFirstDeviates).discrepancies.all
      (fun d => !(jsIncludes d "Google Public DNS")) = true := by decide

/-- C2 amended: for every input and every position `i ≥ 1` of the `ipSets`
array whose sorted IP set differs from the set at position 0,
`consistentRecords` is `false` and a discrepancy naming the resolver at
position `i` of the successful list, with that set's IPs, is in the list; only
deviations from the first set are reported, so a deviating first resolver is
itself never named. -/
theorem analyzePropagation_nonfirst_deviators_named
    (results : List PropagationResult) (i : Nat) (h1 : 1 ≤ i)
    (hi : i < (ipSetsOf results).length)
    (hne : (ipSetsOf results)[i]? ≠ (ipSetsOf results)[0]?) :
    (analyzePropagation results).consistentRecords = false ∧
    discrepancyMsg (loopResolverName (successfulOf results) i)
        ((ipSetsOf results)[i]?.getD [])
      ∈ (analyzePropagation results).discrepancies := by
  have hlen : (ipSetsOf results).length > 1 := by omega
  have hc : (analyzePropagation results).consistentRecords
      = (consistencyLoop (successfulOf results) (ipSetsOf results)).1 := rfl
  have hd : (analyzePropagation results).discrepancies
      = (consistencyLoop (successfulOf results) (ipSetsOf results)).2 := rfl
  rw [hc, hd]
  unfold consistencyLoop
  rw [if_pos hlen, loopFold_closed]
  have hmem : i ∈ List.range' 1 ((ipSetsOf results).length - 1) := by
    rw [List.mem_range'_1]
    omega
  constructor
  · simp only [Bool.true_and]
    rw [Bool.eq_false_iff]
    intro hall
    rw [List.all_eq_true] at hall
    have hhi := hall i hmem
    simp only [beq_iff_eq] at hhi
    exact hne hhi
  · simp only [List.nil_append]
    rw [List.mem_filterMap]
    exact ⟨i, hmem, by rw [if_pos hne]⟩

/-- C2 witness: the amended statement evaluated at the first-deviator input at
position 1 (Cloudflare, whose set differs from set 0). -/
theorem analyzePropagation_nonfirst_deviators_named_witness :
    (1 ≤ 1 ∧ 1 < (ipSetsOf exFirstDeviates).length ∧
      (ipSetsOf exFirstDeviates)[1]? ≠ (ipSetsOf exFirstDeviates)[0]?) ∧
    (analyzePropagation exFirstDeviates).consistentRecords = false ∧
    discrepancyMsg (loopResolverName (successfulOf exFirstDeviates) 1)
        ((ipSetsOf exFirstDeviates)[1]?.getD [])
      ∈ (analyzePropagation exFirstDeviates).discrepancies :=
  ⟨⟨by decide, by decide, by decide⟩,
   analyzePropagation_nonfirst_deviators_named exFirstDeviates 1
     (by decide) (by decide) (by decide)⟩

/-- C7 counterexample: an enumeration run under an ICU-root-like host collation
(where the symbol `@` sorts before digits) produces the labels `@` and `0` in
that order, which is not ascending under ordinal string comparison. -/
theorem enumerateSubdomains_not_ordinal_sorted :
    ((enumerateSubdomains "d" {} ["0.d", "d"] envNoRes [] icuLC).subdomains.map
      (fun r => r.subdomain)) = ["@", "0"] ∧
    ¬ List.Pairwise
      (fun a b : SubdomainResult => jsStrLE a.subdomain b.subdomain = true)
      ((enumerateSubdomains "d" {} ["0.d", "d"] envNoRes [] icuLC).subdomains) := by
  decide

/-- C7 amended: for every enumeration run, the final sequence is sorted
ascending by the host collation behind `localeCompare` (here any comparator
whose at-most relation is total and transitive), which coincides with ordinal
comparison only when the host collation does. -/
theorem enumerateSubdomains_sorted_by_host_collation
    (domain : String) (opts : EnumOptions) (ct : List String) (env : ProbeEnv)
    (ord : List Nat) (lc : String → String → Ordering)
    (htrans : ∀ a b c : String,
      lc a b ≠ Ordering.gt → lc b c ≠ Ordering.gt → lc a c ≠ Ordering.gt)
    (htotal : ∀ a b : String, lc a b ≠ Ordering.gt ∨ lc b a ≠ Ordering.gt) :
    List.Pairwise
      (fun a b : SubdomainResult => lc a.subdomain b.subdomain ≠ Ordering.gt)
      ((enumerateSubdomains domain opts ct env ord lc).subdomains) := by
  letI : IsTrans SubdomainResult
      (fun a b => lc a.subdomain b.subdomain ≠ Ordering.gt) :=
    ⟨fun a b c => htrans a.subdomain b.subdomain c.subdomain⟩
  letI : IsTotal SubdomainResult
      (fun a b => lc a.subdomain b.subdomain ≠ Ordering.gt) :=
    ⟨fun a b => htotal a.subdomain b.subdomain⟩
  exact List.sorted_insertionSort _ _

/-- C7 witness: the amended sortedness evaluated on a concrete run whose host
collation is the ordinal one. -/
theorem enumerateSubdomains_sorted_by_host_collation_witness :
    List.Pairwise
      (fun a b : SubdomainResult => ordLC a.subdomain b.subdomain ≠ Ordering.gt)
      ((enumerateSubdomains "d" {} ["0.d", "d"] envNoRes [] ordLC).subdomains) := by
  apply enumerateSubdomains_sorted_by_host_collation
  · intro a b c h1 h2
    rw [ordLC_ne_gt] at h1 h2 ⊢
    exact jsStrLE_trans a b c h1 h2
  · intro a b
    rcases jsStrLE_total a b with h | h
    · exact Or.inl ((ordLC_ne_gt a b).mpr h)
    · exact Or.inr ((ordLC_ne_gt b a).mpr h)

/-- C8 counterexample: with `maxResults := 1` and the CT source yielding
`a.d` before `www.d`, the name `www.d` — produced by the CT source and by the
wordlist (`www`) — ends up with no entry at all: the capped CT loop skips it
without marking it seen, and the common phase is skipped because the cap is
already reached. -/
theorem enumerateSubdomains_capped_name_dropped :
    ("www.d" ∈ (["a.d", "www.d"] : List String)) ∧
    ("www" ∈ COMMON_SUBDOMAINS) ∧
    ((enumerateSubdomains "d" ⟨true, true, true, 1⟩ ["a.d", "www.d"] envAllRes
        [] ordLC).subdomains.filter
      (fun r => r.fullDomain == "www.d")).length = 0 := by decide

/-- C8 amended: whenever the CT list fits under `maxResults` (is processed
without hitting the cap) and is duplicate-free, every full domain it produces —
in particular one also produced by the wordlist — has exactly one entry in the
final result, and that entry's source is Certificate Transparency; a capped
run can instead drop the name entirely. -/
theorem enumerateSubdomains_ct_precedence
    (domain : String) (opts : EnumOptions) (ct : List String) (env : ProbeEnv)
    (ord : List Nat) (lc : String → String → Ordering) (full : String)
    (hmem : full ∈ ct) (hnd : ct.Nodup) (hlen : ct.length ≤ opts.maxResults) :
    ((enumerateSubdomains domain opts ct env ord lc).subdomains.filter
      (fun r => r.fullDomain == full)).length = 1 ∧
    ∀ r ∈ (enumerateSubdomains domain opts ct env ord lc).subdomains,
      r.fullDomain = full → r.source = "Certificate Transparency" := by
  have hfold := ctFold_no_cap domain opts env ct ⟨[], [], 0, 0⟩
    (fun s _ hs => List.not_mem_nil s hs) hnd (by simpa using hlen)
  have hfold2 : ct.foldl (ctStep domain opts env) ⟨[], [], 0, 0⟩ =
      ⟨ct, ct.map (ctEntry domain opts env), ct.length, 0⟩ := by
    rw [hfold]
    simp
  simp only [enumerateSubdomains, hfold2]
  have hproj : (fun r : SubdomainResult => r.fullDomain == full) ∘
      (ctEntry domain opts env) = fun s => s == full := rfl
  have hctcount :
      ((ct.map (ctEntry domain opts env)).filter
        (fun r => r.fullDomain == full)).length = 1 := by
    rw [← List.countP_eq_length_filter, List.countP_map, hproj]
    exact List.count_eq_one_of_mem hnd hmem
  have hcommon : ∀ r, r ∈
      (if opts.includeCommon &&
          (ct.map (ctEntry domain opts env)).length < opts.maxResults then
        (COMMON_SUBDOMAINS.take
          (opts.maxResults - (ct.map (ctEntry domain opts env)).length)).filterMap
          (commonCandidate domain opts env ct)
      else []) → r.fullDomain ≠ full := by
    intro r hr
    by_cases hif : (opts.includeCommon &&
        decide ((ct.map (ctEntry domain opts env)).length < opts.maxResults)) = true
    · rw [if_pos hif] at hr
      obtain ⟨sub, -, hc⟩ := List.mem_filterMap.mp hr
      have hout := commonCandidate_not_seen domain opts env ct sub r hc
      intro hfd
      rw [hfd] at hout
      exact hout hmem
    · rw [if_neg hif] at hr
      exact absurd hr (List.not_mem_nil r)
  have harrived : ∀ r, r ∈ List.filterMap (fun i =>
      (if opts.includeCommon &&
          (ct.map (ctEntry domain opts env)).length < opts.maxResults then
        (COMMON_SUBDOMAINS.take
          (opts.maxResults - (ct.map (ctEntry domain opts env)).length)).filterMap
          (commonCandidate domain opts env ct)
      else [])[i]?) ord → r.fullDomain ≠ full := by
    intro r hr
    obtain ⟨i, -, hi⟩ := List.mem_filterMap.mp hr
    exact hcommon r (List.getElem?_mem hi)
  constructor
  · rw [filter_sorted_merge, hctcount]
    have hz : (List.filter (fun r => r.fullDomain == full)
        (List.filterMap (fun i =>
          (if opts.includeCommon &&
              (ct.map (ctEntry domain opts env)).length < opts.maxResults then
            (COMMON_SUBDOMAINS.take
              (opts.maxResults - (ct.map (ctEntry domain opts env)).length)).filterMap
              (commonCandidate domain opts env ct)
          else [])[i]?) ord)).length = 0 := by
      rw [← List.countP_eq_length_filter]
      rw [List.countP_eq_zero]
      intro r hr
      simpa using harrived r hr
    rw [hz]
  · intro r hr hfd
    have hr2 := (List.perm_insertionSort _ _).mem_iff.mp hr
    rcases List.mem_append.mp hr2 with hct | hcm
    · obtain ⟨s, -, hs⟩ := List.mem_map.mp hct
      rw [← hs]
      rfl
    · exact absurd hfd (harrived r hcm)

/-- C8 witness: the amended statement evaluated at a singleton CT list under
the default cap. -/
theorem enumerateSubdomains_ct_precedence_witness :
    ("www.d" ∈ (["www.d"] : List String) ∧ (["www.d"] : List String).Nodup ∧
      (["www.d"] : List String).length ≤ ({} : EnumOptions).maxResults) ∧
    ((enumerateSubdomains "d" {} ["www.d"] envAllRes [] ordLC).subdomains.filter
      (fun r => r.fullDomain == "www.d")).length = 1 ∧
    ∀ r ∈ (enumerateSubdomains "d" {} ["www.d"] envAllRes [] ordLC).subdomains,
      r.fullDomain = "www.d" → r.source = "Certificate Transparency" :=
  ⟨⟨by decide, by decide, by decide⟩,
   enumerateSubdomains_ct_precedence "d" {} ["www.d"] envAllRes [] ordLC "www.d"
     (by decide) (by decide) (by decide)⟩

end DnsIntel
